import Mathlib

/-!
Verification of the DXF parsing / SVG projection pipeline of the mdf-cutting
web UI (`src/web-ui/src/services/dxfViewerService.js` and
`src/web-ui/src/components/DxfViewer.jsx`).

The JavaScript source is shallowly embedded:
* JS numbers are modelled by `JSVal` (`nan`, `posInf`, `negInf`, or an exact
  rational); IEEE negative zero is collapsed to `0`, which is unobservable for
  the properties below.
* `String.prototype.trim`, `parseFloat` and `parseInt` are modelled by
  `jsTrim`, `parseFloatJS` and `parseIntJS` over character lists.
* The line scan of `parseDxfContent` becomes the step function `step`
  threaded over the list of lines (`scanLines`), where each iteration sees the
  trimmed current line and may peek at the raw next line, exactly as the
  source indexes `lines[i]` / `lines[i + 1]`.
* `convertDxfToSvg` builds its output by string concatenation in the source;
  here the emitted document is captured structurally (`SvgDoc`): fixed
  width/height, the single group-level transform
  `translate(w/2,h/2) scale(s) translate(-cx,-cy)` as three fields, and the
  list of `<path>` elements, each recording the sequence of vertices its `d`
  attribute visits (`M` first vertex, `L` the rest, no closing `Z`) together
  with its stroke colour and width.  Number-to-string formatting is the only
  part of the string assembly not modelled.
-/

namespace MdfCutting

/-! ## JS string and number primitives -/

/-- Whitespace stripped by `String.prototype.trim` (ASCII subset). -/
def jsWhitespaceChar (c : Char) : Bool :=
  c = ' ' ∨ c = '\t' ∨ c = '\n' ∨ c = '\r' ∨ c = '\x0b' ∨ c = '\x0c'

/-- JS `String.prototype.trim`. -/
def jsTrim (s : String) : String :=
  String.mk (((s.data.dropWhile jsWhitespaceChar).reverse.dropWhile
    jsWhitespaceChar).reverse)

/-- A JS number: NaN, ±Infinity, or a finite value (exact rational model;
negative zero collapsed to `0`). -/
inductive JSVal where
  | nan : JSVal
  | posInf : JSVal
  | negInf : JSVal
  | num : ℚ → JSVal
deriving DecidableEq, Repr

namespace JSVal

def isNumB : JSVal → Bool
  | num _ => true
  | _ => false

end JSVal

open JSVal

/-- The rational carried by a finite `JSVal` (junk `0` otherwise). -/
def ratOf : JSVal → ℚ
  | num q => q
  | _ => 0

/-- Leading decimal digits of a character list, with the rest. -/
def takeDigits : List Char → List ℕ × List Char
  | [] => ([], [])
  | c :: cs =>
    if c.isDigit then
      let (ds, r) := takeDigits cs
      ((c.toNat - 48) :: ds, r)
    else ([], c :: cs)

/-- Value of a digit list read most-significant first. -/
def natOfDigits (ds : List ℕ) : ℕ :=
  ds.foldl (fun acc d => 10 * acc + d) 0

/-- Value of a digit list read as a fractional part. -/
def fracOfDigits (ds : List ℕ) : ℚ :=
  ds.foldr (fun d acc => ((d : ℚ) + acc) / 10) 0

/-- Exponent suffix accepted by JS `parseFloat` (`e`/`E`, optional sign);
an `e` not followed by digits is trailing garbage and is ignored. -/
def applyExp (m : ℚ) : List Char → ℚ
  | 'e' :: r => applyExpTail m r
  | 'E' :: r => applyExpTail m r
  | _ => m
where
  applyExpTail (m : ℚ) (r : List Char) : ℚ :=
    match r with
    | '-' :: r2 =>
      let (ds, _) := takeDigits r2
      if ds = [] then m else m / (10 : ℚ) ^ natOfDigits ds
    | '+' :: r2 =>
      let (ds, _) := takeDigits r2
      if ds = [] then m else m * (10 : ℚ) ^ natOfDigits ds
    | _ =>
      let (ds, _) := takeDigits r
      if ds = [] then m else m * (10 : ℚ) ^ natOfDigits ds

/-- Significand of JS `parseFloat`: digits, optional `.` and fraction digits,
then an optional exponent; `none` when no digit is consumed. -/
def parseFloatCore (cs : List Char) : Option ℚ :=
  let (ip, r1) := takeDigits cs
  match r1 with
  | '.' :: r2 =>
    let (fp, r3) := takeDigits r2
    if ip = [] ∧ fp = [] then none
    else some (applyExp ((natOfDigits ip : ℚ) + fracOfDigits fp) r3)
  | _ =>
    if ip = [] then none else some (applyExp (natOfDigits ip : ℚ) r1)

def infinityChars : List Char := ['I', 'n', 'f', 'i', 'n', 'i', 't', 'y']

/-- JS `parseFloat`: skip leading whitespace, optional sign, `Infinity` or a
decimal literal; trailing garbage ignored; `NaN` when nothing parses. -/
def parseFloatJS (s : String) : JSVal :=
  let cs := s.data.dropWhile jsWhitespaceChar
  match cs with
  | '-' :: r =>
    if infinityChars.isPrefixOf r then negInf
    else match parseFloatCore r with
      | some q => num (-q)
      | none => nan
  | '+' :: r =>
    if infinityChars.isPrefixOf r then posInf
    else match parseFloatCore r with
      | some q => num q
      | none => nan
  | r =>
    if infinityChars.isPrefixOf r then posInf
    else match parseFloatCore r with
      | some q => num q
      | none => nan

/-- Leading hexadecimal digits of a character list. -/
def takeHexDigits : List Char → List ℕ × List Char
  | [] => ([], [])
  | c :: cs =>
    if c.isDigit then
      let (ds, r) := takeHexDigits cs
      ((c.toNat - 48) :: ds, r)
    else if 'a' ≤ c ∧ c ≤ 'f' then
      let (ds, r) := takeHexDigits cs
      ((c.toNat - 87) :: ds, r)
    else if 'A' ≤ c ∧ c ≤ 'F' then
      let (ds, r) := takeHexDigits cs
      ((c.toNat - 55) :: ds, r)
    else ([], c :: cs)

def natOfHexDigits (ds : List ℕ) : ℕ :=
  ds.foldl (fun acc d => 16 * acc + d) 0

/-- JS `parseInt` with no radix argument: skip whitespace, optional sign,
`0x`/`0X` hex or decimal digits; `none` models `NaN`. -/
def parseIntJS (s : String) : Option ℤ :=
  let cs := s.data.dropWhile jsWhitespaceChar
  match cs with
  | '-' :: r => (parseIntCore r).map (fun n => -(n : ℤ))
  | '+' :: r => (parseIntCore r).map (fun n => (n : ℤ))
  | r => (parseIntCore r).map (fun n => (n : ℤ))
where
  parseIntCore (r : List Char) : Option ℕ :=
    match r with
    | '0' :: 'x' :: r2 =>
      let (ds, _) := takeHexDigits r2
      if ds = [] then none else some (natOfHexDigits ds)
    | '0' :: 'X' :: r2 =>
      let (ds, _) := takeHexDigits r2
      if ds = [] then none else some (natOfHexDigits ds)
    | _ =>
      let (ds, _) := takeDigits r
      if ds = [] then none else some (natOfDigits ds)

/-! JS arithmetic on `JSVal` (IEEE semantics, negative zero collapsed). -/

def jsNeg : JSVal → JSVal
  | nan => nan
  | posInf => negInf
  | negInf => posInf
  | num q => num (-q)

def jsAdd : JSVal → JSVal → JSVal
  | nan, _ => nan
  | _, nan => nan
  | posInf, negInf => nan
  | negInf, posInf => nan
  | posInf, _ => posInf
  | _, posInf => posInf
  | negInf, _ => negInf
  | _, negInf => negInf
  | num a, num b => num (a + b)

def jsSub (a b : JSVal) : JSVal := jsAdd a (jsNeg b)

def jsMul : JSVal → JSVal → JSVal
  | nan, _ => nan
  | _, nan => nan
  | posInf, posInf => posInf
  | posInf, negInf => negInf
  | negInf, posInf => negInf
  | negInf, negInf => posInf
  | posInf, num q => if q = 0 then nan else if 0 < q then posInf else negInf
  | num q, posInf => if q = 0 then nan else if 0 < q then posInf else negInf
  | negInf, num q => if q = 0 then nan else if 0 < q then negInf else posInf
  | num q, negInf => if q = 0 then nan else if 0 < q then negInf else posInf
  | num a, num b => num (a * b)

def jsDiv : JSVal → JSVal → JSVal
  | nan, _ => nan
  | _, nan => nan
  | posInf, posInf => nan
  | posInf, negInf => nan
  | negInf, posInf => nan
  | negInf, negInf => nan
  | posInf, num q => if 0 ≤ q then posInf else negInf
  | negInf, num q => if 0 ≤ q then negInf else posInf
  | num _, posInf => num 0
  | num _, negInf => num 0
  | num a, num b =>
    if b = 0 then (if a = 0 then nan else if 0 < a then posInf else negInf)
    else num (a / b)

/-- JS `Math.min` (NaN-propagating). -/
def jsMin : JSVal → JSVal → JSVal
  | nan, _ => nan
  | _, nan => nan
  | negInf, _ => negInf
  | _, negInf => negInf
  | posInf, b => b
  | a, posInf => a
  | num a, num b => num (min a b)

/-- JS `Math.max` (NaN-propagating). -/
def jsMax : JSVal → JSVal → JSVal
  | nan, _ => nan
  | _, nan => nan
  | posInf, _ => posInf
  | _, posInf => posInf
  | negInf, b => b
  | a, negInf => a
  | num a, num b => num (max a b)

/-! ## Data model of `parseDxfContent` -/

/-- A collected vertex `{x: lastX, y: y}`. -/
structure Vertex where
  x : JSVal
  y : JSVal
deriving DecidableEq, Repr

/-- The `data` object of an entity; fields appear only once the corresponding
group code has been seen. -/
structure EntityData where
  layer : Option String := none
  vertexCount : Option (Option ℤ) := none
deriving DecidableEq, Repr

/-- One extracted entity `{ type, data, vertices }`. -/
structure Entity where
  type : String
  data : EntityData
  vertices : List Vertex
deriving DecidableEq, Repr

/-- The mutable locals of the scan loop in `parseDxfContent`
(`entities`, `currentEntity`, `inEntity`, `inEntitiesSection`,
`currentLayer`, `vertexCount`, `vertices`, `expectingY`, `lastX`). -/
structure PState where
  entities : List Entity
  currentEntity : Option Entity
  inEntity : Bool
  inEntitiesSection : Bool
  currentLayer : Option String
  vertexCount : Option ℤ
  vertices : List Vertex
  expectingY : Bool
  lastX : Option JSVal
deriving DecidableEq, Repr

def initState : PState :=
  { entities := []
    currentEntity := none
    inEntity := false
    inEntitiesSection := false
    currentLayer := none
    vertexCount := some 0
    vertices := []
    expectingY := false
    lastX := none }

/-- The allow-list check
`currentLayer === '0' || currentLayer === 'work_area' || currentLayer === 'details'`. -/
def allowedCur (l : Option String) : Bool :=
  l = some "0" || l = some "work_area" || l = some "details"

/-- Finalize the current entity: if one is pending and its layer is allowed,
append it (with the collected vertices) to the result list. -/
def finalizeEntity (s : PState) : List Entity :=
  match s.currentEntity with
  | some ce =>
    if allowedCur s.currentLayer then
      s.entities ++ [{ ce with vertices := s.vertices }]
    else s.entities
  | none => s.entities

/-- The `line === '0'` branch: a `0`/`LWPOLYLINE` pair finalizes the pending
entity and starts a new one; any other entity type is ignored. -/
def stepZero (line : String) (next? : Option String) (s : PState) : PState :=
  match next? with
  | some nl =>
    if line = "0" ∧ jsTrim nl = "LWPOLYLINE" then
      { s with
        entities := finalizeEntity s
        currentEntity := some { type := "LWPOLYLINE", data := {}, vertices := [] }
        currentLayer := none
        vertexCount := some 0
        vertices := []
        expectingY := false
        lastX := none
        inEntity := true }
    else s
  | none => s

/-- The `if (inEntity && currentEntity)` block: group codes `8`, `90`, `10`,
`20` (each also requires a following line to exist). -/
def stepCodes (line : String) (next? : Option String) (s : PState) : PState :=
  if s.inEntity then
    match s.currentEntity with
    | some ce =>
      match next? with
      | some nl =>
        if line = "8" then
          { s with
            currentLayer := some (jsTrim nl)
            currentEntity :=
              some { ce with data := { ce.data with layer := some (jsTrim nl) } } }
        else if line = "90" then
          { s with
            vertexCount := parseIntJS nl
            currentEntity :=
              some { ce with
                data := { ce.data with vertexCount := some (parseIntJS nl) } } }
        else if line = "10" then
          { s with lastX := some (parseFloatJS nl), expectingY := true }
        else if line = "20" then
          if s.expectingY then
            match s.lastX with
            | some lx =>
              { s with
                vertices := s.vertices ++ [{ x := lx, y := parseFloatJS nl }]
                expectingY := false
                lastX := none }
            | none => s
          else s
        else s
      | none => s
    | none => s
  else s

/-- One iteration of the scan loop, for the trimmed current line and the raw
next line (when one exists). -/
def step (line : String) (next? : Option String) (s : PState) : PState :=
  if line = "2" ∧ next?.map jsTrim = some "ENTITIES" then
    { s with inEntitiesSection := true }
  else if s.inEntitiesSection then
    stepCodes line next? (stepZero line next? s)
  else s

/-- The whole `for` loop: each line is trimmed, and the iteration may peek at
the raw following line. -/
def scanLines : List String → PState → PState
  | [], s => s
  | l :: rest, s => scanLines rest (step (jsTrim l) rest.head? s)

/-- `parseDxfContent` given the already-split lines: run the scan and push the
final pending entity. -/
def parseDxfLines (lines : List String) : List Entity :=
  finalizeEntity (scanLines lines initState)

/-- `parseDxfContent` on decoded text (the `TextDecoder` step, which can only
fail on undecodable bytes, is outside the model). -/
def parseDxfContent (text : String) : List Entity :=
  parseDxfLines (text.splitOn "\n")

/-! ## `convertDxfToSvg` -/

/-- The bounding-box accumulator `minX, maxX, minY, maxY`. -/
structure BBox where
  minX : JSVal
  maxX : JSVal
  minY : JSVal
  maxY : JSVal
deriving DecidableEq, Repr

/-- One vertex visit of the min/max reduction. -/
def bbUpdate (bb : BBox) (v : Vertex) : BBox :=
  { minX := jsMin bb.minX v.x
    maxX := jsMax bb.maxX v.x
    minY := jsMin bb.minY v.y
    maxY := jsMax bb.maxY v.y }

/-- Initial accumulator `(Infinity, -Infinity, Infinity, -Infinity)`. -/
def bbInit : BBox :=
  { minX := posInf, maxX := negInf, minY := posInf, maxY := negInf }

/-- The nested `entities.forEach { vertices.forEach { ... } }` reduction. -/
def bbOfEntities (entities : List Entity) : BBox :=
  entities.foldl (fun bb e => e.vertices.foldl bbUpdate bb) bbInit

/-- One emitted `<path>` element: the vertices its `d` attribute visits
(`M` first, `L` the rest, no `Z`), plus stroke colour and width. -/
structure SvgPathElem where
  d : List Vertex
  stroke : String
  strokeWidth : String
deriving DecidableEq, Repr

/-- Per-layer stroke styling. -/
def strokeOf (e : Entity) : String × String :=
  if e.data.layer = some "0" ∨ e.data.layer = some "work_area" then
    ("#2E86AB", "2")
  else if e.data.layer = some "details" then
    ("#A23B72", "1.5")
  else ("black", "1")

/-- One iteration of the path-emission loop: emit a `<path>` when the entity
is an LWPOLYLINE with `vertices.length > 0`. -/
def pathStep (acc : List SvgPathElem) (e : Entity) : List SvgPathElem :=
  if e.type = "LWPOLYLINE" ∧ 0 < e.vertices.length then
    acc ++ [{ d := e.vertices, stroke := (strokeOf e).1,
              strokeWidth := (strokeOf e).2 }]
  else acc

/-- The path-emission loop over all entities. -/
def pathsOf (entities : List Entity) : List SvgPathElem :=
  entities.foldl pathStep []

/-- The emitted SVG document, structurally: fixed width/height, the single
group transform `translate(width/2, height/2) scale(s) translate(-cx, -cy)`,
and the path elements in emission order. -/
structure SvgDoc where
  width : ℚ
  height : ℚ
  translate1 : ℚ × ℚ
  scaleT : JSVal
  translate2 : JSVal × JSVal
  paths : List SvgPathElem
deriving DecidableEq, Repr

/-- `convertDxfToSvg(entities, width, height)`: bounding box, `dx`/`dy`,
`scale = Math.min(width/dx, height/dy) * 0.8`, centre, transform, paths. -/
def convertDxfToSvg (entities : List Entity) (width height : ℚ) : SvgDoc :=
  let bb := bbOfEntities entities
  let dx := jsSub bb.maxX bb.minX
  let dy := jsSub bb.maxY bb.minY
  let scale := jsMul (jsMin (jsDiv (num width) dx) (jsDiv (num height) dy))
    (num (4 / 5))
  let centerX := jsDiv (jsAdd bb.minX bb.maxX) (num 2)
  let centerY := jsDiv (jsAdd bb.minY bb.maxY) (num 2)
  { width := width
    height := height
    translate1 := (width / 2, height / 2)
    scaleT := scale
    translate2 := (jsNeg centerX, jsNeg centerY)
    paths := pathsOf entities }

/-! ## Zoom handlers of `DxfViewer.jsx` -/

/-- `handleZoomIn`: `Math.min(prev * 1.2, 5)`. -/
def handleZoomIn (z : ℚ) : ℚ := min (z * (6 / 5)) 5

/-- `handleZoomOut`: `Math.max(prev / 1.2, 0.1)`. -/
def handleZoomOut (z : ℚ) : ℚ := max (z / (6 / 5)) (1 / 10)

/-- `handleWheel` / the container `onWheel`:
`delta = deltaY > 0 ? 0.9 : 1.1; Math.max(0.1, Math.min(5, prev * delta))`. -/
def handleWheel (deltaYPos : Bool) (z : ℚ) : ℚ :=
  let delta : ℚ := if deltaYPos then 9 / 10 else 11 / 10
  max (1 / 10) (min 5 (z * delta))

/-- `handleResetZoom`: back to 1. -/
def handleResetZoom (_ : ℚ) : ℚ := 1

/-- One user zoom interaction. -/
inductive ZoomAction where
  | zoomIn : ZoomAction
  | zoomOut : ZoomAction
  | wheel : Bool → ZoomAction
  | reset : ZoomAction
deriving DecidableEq, Repr

def applyZoom : ZoomAction → ℚ → ℚ
  | ZoomAction.zoomIn, z => handleZoomIn z
  | ZoomAction.zoomOut, z => handleZoomOut z
  | ZoomAction.wheel b, z => handleWheel b z
  | ZoomAction.reset, z => handleResetZoom z

/-- The zoom factor after a sequence of interactions, from the initial 1.0. -/
def zoomSeq (acts : List ZoomAction) : ℚ :=
  acts.foldl (fun z a => applyZoom a z) 1

/-! ## Spec-side model: DXF documents and their expected extraction

These definitions follow the spec's words ("a DXF input whose ENTITIES
section contains N LWPOLYLINE entities ..."), to be compared with what
`parseDxfContent` actually computes on the serialized line stream. -/

/-- One LWPOLYLINE of a DXF document: optional layer (group code 8), the
declared vertex-count value line (group code 90), and the coordinate value
lines, paired as (x-line, y-line) for group codes 10/20. -/
structure DxfPoly where
  layer? : Option String
  countStr : String
  pts : List (String × String)
deriving DecidableEq, Repr

/-- The group-code/value line pairs of one LWPOLYLINE. -/
def serializePoly (p : DxfPoly) : List String :=
  ["0", "LWPOLYLINE"] ++
    (match p.layer? with
     | some l => ["8", l]
     | none => []) ++
    ["90", p.countStr] ++
    (p.pts.map (fun q => ["10", q.1, "20", q.2])).flatten

/-- A whole DXF file: SECTION/ENTITIES header, the polylines, ENDSEC/EOF. -/
def serializeDxf (d : List DxfPoly) : List String :=
  ["0", "SECTION", "2", "ENTITIES"] ++ (d.map serializePoly).flatten ++
    ["0", "ENDSEC", "0", "EOF"]

/-- A value line is clean when, after trimming, it is not itself one of the
group-code tokens the scanner dispatches on. -/
def CleanVal (s : String) : Prop :=
  jsTrim s ≠ "8" ∧ jsTrim s ≠ "90" ∧ jsTrim s ≠ "10" ∧ jsTrim s ≠ "20"

instance (s : String) : Decidable (CleanVal s) := by
  unfold CleanVal; infer_instance

/-- All value lines of a polyline are clean, and its layer (if any) is
already in trimmed form. -/
def CleanPoly (p : DxfPoly) : Prop :=
  (∀ l ∈ p.layer?, jsTrim l = l ∧ CleanVal l) ∧
    CleanVal p.countStr ∧ ∀ q ∈ p.pts, CleanVal q.1 ∧ CleanVal q.2

instance (p : DxfPoly) : Decidable (CleanPoly p) := by
  unfold CleanPoly; infer_instance

/-- The vertex the extractor is expected to collect from one (x, y) pair. -/
def mkVertex (q : String × String) : Vertex :=
  { x := parseFloatJS q.1, y := parseFloatJS q.2 }

/-- The entity the spec expects for one polyline of the document. -/
def expectedEntity (p : DxfPoly) : Entity :=
  { type := "LWPOLYLINE"
    data := { layer := p.layer?, vertexCount := some (parseIntJS p.countStr) }
    vertices := p.pts.map mkVertex }

/-- Spec-side extraction: the polylines on allowed layers, in order, each
with its vertices in order; others discarded. -/
def expectedEntities (d : List DxfPoly) : List Entity :=
  (d.filter (fun p => allowedCur p.layer?)).map expectedEntity

/-! ## Spec-side bounding box (rational) -/

/-- All vertices of all entities, in order. -/
def vertsOf (entities : List Entity) : List Vertex :=
  (entities.map Entity.vertices).flatten

/-- Minimum of a rational list (`none` on empty). -/
def foldMin? : List ℚ → Option ℚ
  | [] => none
  | a :: t => some (t.foldl min a)

/-- Maximum of a rational list (`none` on empty). -/
def foldMax? : List ℚ → Option ℚ
  | [] => none
  | a :: t => some (t.foldl max a)

/-- All x coordinates as rationals (meaningful when every coordinate is a
finite number). -/
def xsOf (entities : List Entity) : List ℚ :=
  (vertsOf entities).map (fun v => ratOf v.x)

def ysOf (entities : List Entity) : List ℚ :=
  (vertsOf entities).map (fun v => ratOf v.y)

/-- Each vertex coordinate is a finite JS number. -/
def AllNum (entities : List Entity) : Prop :=
  ∀ v ∈ vertsOf entities, v.x.isNumB ∧ v.y.isNumB

instance (entities : List Entity) : Decidable (AllNum entities) := by
  unfold AllNum; infer_instance

/-- The scanner state reached after one serialized polyline (its entity is
still pending, finalized by the next block or the end of input). -/
def afterPoly (es : List Entity) (p : DxfPoly) : PState :=
  { entities := es
    currentEntity :=
      some { type := "LWPOLYLINE"
             data := { layer := p.layer?
                       vertexCount := some (parseIntJS p.countStr) }
             vertices := [] }
    inEntity := true
    inEntitiesSection := true
    currentLayer := p.layer?
    vertexCount := parseIntJS p.countStr
    vertices := p.pts.map mkVertex
    expectingY := false
    lastX := none }

/-- Folding `afterPoly` over the document's polylines. -/
def afterPolys : List DxfPoly → PState → PState
  | [], s => s
  | p :: t, s => afterPolys t (afterPoly (finalizeEntity s) p)

/-- Spec-side retention test: an LWPOLYLINE with at least one vertex. -/
def specRetained (e : Entity) : Bool :=
  e.type == "LWPOLYLINE" && !e.vertices.isEmpty

/-! ## Step equations for the scanner -/

theorem stepZero_flag (l : String) (n : Option String) (s : PState) :
    (stepZero l n s).inEntitiesSection = s.inEntitiesSection := by
  unfold stepZero
  repeat' split
  all_goals rfl

theorem stepCodes_flag (l : String) (n : Option String) (s : PState) :
    (stepCodes l n s).inEntitiesSection = s.inEntitiesSection := by
  unfold stepCodes
  repeat' split
  all_goals rfl

/-- Once `inEntitiesSection` is set, no iteration clears it. -/
theorem step_flag_mono (l : String) (n : Option String) (s : PState)
    (h : s.inEntitiesSection = true) : (step l n s).inEntitiesSection = true := by
  unfold step
  repeat' split
  all_goals first
    | rfl
    | exact h
    | (rw [stepCodes_flag, stepZero_flag]; exact h)

theorem scanLines_flag_mono (lines : List String) (s : PState)
    (h : s.inEntitiesSection = true) :
    (scanLines lines s).inEntitiesSection = true := by
  induction lines generalizing s with
  | nil => exact h
  | cons l rest ih => exact ih _ (step_flag_mono _ _ _ h)

theorem scanLines_cons (l : String) (rest : List String) (s : PState) :
    scanLines (l :: rest) s = scanLines rest (step (jsTrim l) rest.head? s) :=
  rfl

/-- Before the ENTITIES marker, every non-marker line is skipped. -/
theorem step_skip (l : String) (n : Option String) (s : PState)
    (hf : s.inEntitiesSection = false)
    (h2 : ¬(l = "2" ∧ n.map jsTrim = some "ENTITIES")) :
    step l n s = s := by
  unfold step
  rw [if_neg h2, hf]
  simp

/-- The `2` / `ENTITIES` marker pair sets the section flag. -/
theorem step_set_flag (n : Option String) (s : PState)
    (h : n.map jsTrim = some "ENTITIES") :
    step "2" n s = { s with inEntitiesSection := true } := by
  unfold step
  rw [if_pos ⟨rfl, h⟩]

/-- Inside the section, a line that is none of the dispatched group-code
tokens (and does not start a `LWPOLYLINE`) leaves the state unchanged. -/
theorem step_noop (l : String) (n : Option String) (s : PState)
    (hf : s.inEntitiesSection = true)
    (h8 : l ≠ "8") (h90 : l ≠ "90") (h10 : l ≠ "10") (h20 : l ≠ "20")
    (h0 : l = "0" → n.map jsTrim ≠ some "LWPOLYLINE") :
    step l n s = s := by
  obtain ⟨se, sc, si, sf, sl, sv, svs, sey, slx⟩ := s
  simp only [PState.mk.injEq] at hf
  subst hf
  unfold step stepCodes stepZero
  repeat' split
  all_goals simp_all

/-- A `0` line whose following line is not `LWPOLYLINE` changes nothing,
whether or not an entity is pending. -/
theorem step_zero_other (n : Option String) (s : PState)
    (h : n.map jsTrim ≠ some "LWPOLYLINE") :
    step "0" n s = s := by
  by_cases hf : s.inEntitiesSection
  · exact step_noop _ _ _ hf (by decide) (by decide) (by decide) (by decide)
      (fun _ => h)
  · exact step_skip _ _ _ (by simpa using hf) (by simp)

/-- A `0` / `LWPOLYLINE` pair inside the section: finalize the pending
entity and reset all per-entity state. -/
theorem step_start (nl : String) (s : PState)
    (hf : s.inEntitiesSection = true) (hnl : jsTrim nl = "LWPOLYLINE") :
    step "0" (some nl) s =
      { entities := finalizeEntity s
        currentEntity := some { type := "LWPOLYLINE", data := {}, vertices := [] }
        inEntity := true
        inEntitiesSection := true
        currentLayer := none
        vertexCount := some 0
        vertices := []
        expectingY := false
        lastX := none } := by
  simp [step, stepZero, stepCodes, hf, hnl]

/-- Group code `8`: record the trimmed next line as the current layer. -/
theorem step_code8 (nl : String) (s : PState) (ce : Entity)
    (hf : s.inEntitiesSection = true) (hI : s.inEntity = true)
    (hc : s.currentEntity = some ce) :
    step "8" (some nl) s =
      { s with
        currentLayer := some (jsTrim nl)
        currentEntity :=
          some { ce with data := { ce.data with layer := some (jsTrim nl) } } } := by
  simp [step, stepZero, stepCodes, hf, hI, hc]

/-- Group code `90`: record `parseInt` of the next line as the vertex count. -/
theorem step_code90 (nl : String) (s : PState) (ce : Entity)
    (hf : s.inEntitiesSection = true) (hI : s.inEntity = true)
    (hc : s.currentEntity = some ce) :
    step "90" (some nl) s =
      { s with
        vertexCount := parseIntJS nl
        currentEntity :=
          some { ce with
            data := { ce.data with vertexCount := some (parseIntJS nl) } } } := by
  simp [step, stepZero, stepCodes, hf, hI, hc]

/-- Group code `10`: set the pending X and expect a Y. -/
theorem step_code10 (nl : String) (s : PState) (ce : Entity)
    (hf : s.inEntitiesSection = true) (hI : s.inEntity = true)
    (hc : s.currentEntity = some ce) :
    step "10" (some nl) s =
      { s with lastX := some (parseFloatJS nl), expectingY := true } := by
  simp [step, stepZero, stepCodes, hf, hI, hc]

/-- Group code `20` with a pending X: append the vertex and clear the
pending X. -/
theorem step_code20_push (nl : String) (s : PState) (ce : Entity) (lx : JSVal)
    (hf : s.inEntitiesSection = true) (hI : s.inEntity = true)
    (hc : s.currentEntity = some ce)
    (hey : s.expectingY = true) (hlx : s.lastX = some lx) :
    step "20" (some nl) s =
      { s with
        vertices := s.vertices ++ [{ x := lx, y := parseFloatJS nl }]
        expectingY := false
        lastX := none } := by
  simp [step, stepZero, stepCodes, hf, hI, hc, hey, hlx]

/-- Group code `20` with no pending X: ignored. -/
theorem step_code20_skip (nl : String) (s : PState)
    (h : s.expectingY = false ∨ s.lastX = none) :
    step "20" (some nl) s = s := by
  by_cases hf : s.inEntitiesSection
  · cases h with
    | inl hey =>
      simp [step, stepZero, stepCodes, hf, hey]
      intro _
      cases s.currentEntity <;> rfl
    | inr hlx =>
      by_cases hey : s.expectingY
      · simp [step, stepZero, stepCodes, hf, hey, hlx]
        intro _
        cases s.currentEntity <;> rfl
      · simp [step, stepZero, stepCodes, hf, hey]
        intro _
        cases s.currentEntity <;> rfl
  · exact step_skip _ _ _ (by simpa using hf) (by simp)

/-- A clean value line inside the section is a no-op (given the line after
it does not read as `LWPOLYLINE`). -/
theorem step_value_noop (v : String) (n : Option String) (s : PState)
    (hf : s.inEntitiesSection = true) (hv : CleanVal v)
    (h0 : n.map jsTrim ≠ some "LWPOLYLINE") :
    step (jsTrim v) n s = s :=
  step_noop _ _ _ hf hv.1 hv.2.1 hv.2.2.1 hv.2.2.2 (fun _ => h0)

/-! ## Scanning a serialized document -/

/-- Scanning the `10`/`20` pairs of a polyline appends exactly the parsed
vertices, in order. -/
theorem scanLines_pts (pts : List (String × String)) (rest : List String)
    (s : PState) (ce : Entity)
    (hf : s.inEntitiesSection = true) (hI : s.inEntity = true)
    (hc : s.currentEntity = some ce) (hey : s.expectingY = false)
    (hlx : s.lastX = none)
    (hclean : ∀ q ∈ pts, CleanVal q.1 ∧ CleanVal q.2)
    (hrest : rest.head?.map jsTrim ≠ some "LWPOLYLINE") :
    scanLines ((pts.map (fun q => ["10", q.1, "20", q.2])).flatten ++ rest) s =
      scanLines rest { s with vertices := s.vertices ++ pts.map mkVertex } := by
  induction pts generalizing s with
  | nil => simp
  | cons q tail ih =>
    have hq := hclean q (by simp)
    have hpeek :
        (((tail.map (fun q => ["10", q.1, "20", q.2])).flatten ++
          rest).head?).map jsTrim ≠ some "LWPOLYLINE" := by
      cases tail with
      | nil => simpa using hrest
      | cons a b => simp; decide
    obtain ⟨se, sc, si, sf, slay, svc, svs, sey, slx⟩ := s
    simp only at hf hI hc hey hlx
    subst hf hI hc hey hlx
    simp only [List.map_cons, List.flatten_cons, List.cons_append,
      List.append_assoc, List.nil_append]
    rw [scanLines_cons]
    simp only [List.head?_cons]
    rw [show jsTrim "10" = "10" from by decide,
      step_code10 q.1 _ ce rfl rfl rfl]
    rw [scanLines_cons]
    simp only [List.head?_cons]
    rw [step_value_noop q.1 (some "20") _ rfl hq.1 (by decide)]
    rw [scanLines_cons]
    simp only [List.head?_cons]
    rw [show jsTrim "20" = "20" from by decide,
      step_code20_push q.2 _ ce (parseFloatJS q.1) rfl rfl rfl rfl rfl]
    rw [scanLines_cons]
    rw [step_value_noop q.2 _ _ rfl hq.2 hpeek]
    rw [ih _ rfl rfl rfl rfl rfl (fun a ha => hclean a (by simp [ha]))]
    simp [mkVertex]

/-- Scanning one serialized polyline block finalizes the pending entity and
leaves the block's own entity pending with its parsed vertices. -/
theorem scanLines_poly (p : DxfPoly) (hp : CleanPoly p) (rest : List String)
    (hrest : rest.head?.map jsTrim ≠ some "LWPOLYLINE")
    (s : PState) (hf : s.inEntitiesSection = true) :
    scanLines (serializePoly p ++ rest) s =
      scanLines rest (afterPoly (finalizeEntity s) p) := by
  obtain ⟨hlay, hcount, hpts⟩ := hp
  have hpeekPts :
      ((p.pts.map (fun q => ["10", q.1, "20", q.2])).flatten ++
        rest).head?.map jsTrim ≠ some "LWPOLYLINE" := by
    cases p.pts with
    | nil => simpa using hrest
    | cons a b => simp; decide
  cases hl : p.layer? with
  | some L =>
    obtain ⟨hLtrim, hLclean⟩ := hlay L hl
    simp only [serializePoly, hl, List.cons_append, List.append_assoc,
      List.nil_append]
    rw [scanLines_cons]
    simp only [List.head?_cons]
    rw [show jsTrim "0" = "0" from by decide,
      step_start "LWPOLYLINE" s hf (by decide)]
    rw [scanLines_cons]
    simp only [List.head?_cons]
    rw [step_value_noop "LWPOLYLINE" (some "8") _ rfl (by decide) (by decide)]
    rw [scanLines_cons]
    simp only [List.head?_cons]
    rw [show jsTrim "8" = "8" from by decide,
      step_code8 L _ _ rfl rfl rfl]
    rw [scanLines_cons]
    simp only [List.head?_cons]
    rw [step_value_noop L (some "90") _ rfl hLclean (by decide)]
    rw [scanLines_cons]
    simp only [List.head?_cons]
    rw [show jsTrim "90" = "90" from by decide,
      step_code90 p.countStr _ _ rfl rfl rfl]
    rw [scanLines_cons]
    rw [step_value_noop p.countStr _ _ rfl hcount hpeekPts]
    rw [scanLines_pts p.pts rest _ _ rfl rfl rfl rfl rfl hpts hrest]
    simp [afterPoly, hl, hLtrim]
  | none =>
    simp only [serializePoly, hl, List.cons_append, List.append_assoc,
      List.nil_append]
    rw [scanLines_cons]
    simp only [List.head?_cons]
    rw [show jsTrim "0" = "0" from by decide,
      step_start "LWPOLYLINE" s hf (by decide)]
    rw [scanLines_cons]
    simp only [List.head?_cons]
    rw [step_value_noop "LWPOLYLINE" (some "90") _ rfl (by decide) (by decide)]
    rw [scanLines_cons]
    simp only [List.head?_cons]
    rw [show jsTrim "90" = "90" from by decide,
      step_code90 p.countStr _ _ rfl rfl rfl]
    rw [scanLines_cons]
    rw [step_value_noop p.countStr _ _ rfl hcount hpeekPts]
    rw [scanLines_pts p.pts rest _ _ rfl rfl rfl rfl rfl hpts hrest]
    simp [afterPoly, hl]

theorem scanLines_polys (d : List DxfPoly) (hd : ∀ p ∈ d, CleanPoly p)
    (rest : List String)
    (hrest : rest.head?.map jsTrim ≠ some "LWPOLYLINE")
    (s : PState) (hf : s.inEntitiesSection = true) :
    scanLines ((d.map serializePoly).flatten ++ rest) s =
      scanLines rest (afterPolys d s) := by
  induction d generalizing s with
  | nil => simp [afterPolys]
  | cons p t ih =>
    have hmid :
        ((t.map serializePoly).flatten ++ rest).head?.map jsTrim ≠
          some "LWPOLYLINE" := by
      cases t with
      | nil => simpa using hrest
      | cons a b =>
        simp only [List.map_cons, List.flatten_cons, serializePoly,
          List.cons_append, List.append_assoc, List.head?_cons,
          Option.map_some]
        decide
    simp only [List.map_cons, List.flatten_cons, List.append_assoc]
    rw [scanLines_poly p (hd p (by simp)) _ hmid s hf]
    exact ih (fun a ha => hd a (by simp [ha])) _ rfl

theorem afterPolys_flag (d : List DxfPoly) (s : PState)
    (hf : s.inEntitiesSection = true) :
    (afterPolys d s).inEntitiesSection = true := by
  induction d generalizing s with
  | nil => exact hf
  | cons p t ih => exact ih _ rfl

/-- Finalizing after one block appends the block's entity exactly when its
layer is allowed. -/
theorem finalizeEntity_afterPoly (es : List Entity) (p : DxfPoly) :
    finalizeEntity (afterPoly es p) =
      es ++ (if allowedCur p.layer? then [expectedEntity p] else []) := by
  unfold finalizeEntity afterPoly
  by_cases h : allowedCur p.layer? <;>
    simp [h, expectedEntity]

theorem finalizeEntity_afterPolys (d : List DxfPoly) (s : PState) :
    finalizeEntity (afterPolys d s) = finalizeEntity s ++ expectedEntities d := by
  induction d generalizing s with
  | nil => simp [afterPolys, expectedEntities]
  | cons p t ih =>
    show finalizeEntity (afterPolys t (afterPoly (finalizeEntity s) p)) = _
    rw [ih, finalizeEntity_afterPoly]
    by_cases h : allowedCur p.layer? <;>
      simp [expectedEntities, h, List.filter_cons, List.append_assoc]

/-- The `ENDSEC` / `EOF` tail is inert. -/
theorem scanLines_tail_inert (s : PState) (hf : s.inEntitiesSection = true) :
    scanLines ["0", "ENDSEC", "0", "EOF"] s = s := by
  rw [scanLines_cons]
  simp only [List.head?_cons]
  rw [show jsTrim "0" = "0" from by decide,
    step_zero_other (some "ENDSEC") s (by decide)]
  rw [scanLines_cons]
  simp only [List.head?_cons]
  rw [step_value_noop "ENDSEC" (some "0") s hf (by decide) (by decide)]
  rw [scanLines_cons]
  simp only [List.head?_cons]
  rw [show jsTrim "0" = "0" from by decide,
    step_zero_other (some "EOF") s (by decide)]
  rw [scanLines_cons]
  simp only [List.head?_nil]
  rw [step_value_noop "EOF" none s hf (by decide) (by simp)]
  rfl

/-- Scanning the SECTION/ENTITIES header from the initial state just sets
the section flag. -/
theorem scanLines_header (bodyRest : List String) :
    scanLines (["0", "SECTION", "2", "ENTITIES"] ++ bodyRest) initState =
      scanLines bodyRest { initState with inEntitiesSection := true } := by
  simp only [List.cons_append, List.nil_append]
  rw [scanLines_cons]
  simp only [List.head?_cons]
  rw [show jsTrim "0" = "0" from by decide,
    step_skip "0" (some "SECTION") initState rfl (by decide)]
  rw [scanLines_cons]
  simp only [List.head?_cons]
  rw [show jsTrim "SECTION" = "SECTION" from by decide,
    step_skip "SECTION" (some "2") initState rfl (by decide)]
  rw [scanLines_cons]
  simp only [List.head?_cons]
  rw [show jsTrim "2" = "2" from by decide,
    step_set_flag (some "ENTITIES") initState (by decide)]
  rw [scanLines_cons]
  rw [show jsTrim "ENTITIES" = "ENTITIES" from by decide]
  rw [step_noop "ENTITIES" bodyRest.head? _ rfl (by decide) (by decide)
    (by decide) (by decide) (fun h => absurd h (by decide))]

/-- Main refinement: on a clean serialized document, `parseDxfContent`
returns exactly the allowed polylines, in order, with their vertices. -/
theorem parseDxf_serialize (d : List DxfPoly) (hd : ∀ p ∈ d, CleanPoly p) :
    parseDxfLines (serializeDxf d) = expectedEntities d := by
  unfold parseDxfLines serializeDxf
  rw [List.append_assoc, scanLines_header]
  rw [scanLines_polys d hd _ (by decide) _ rfl]
  rw [scanLines_tail_inert _ (afterPolys_flag d _ rfl)]
  rw [finalizeEntity_afterPolys]
  rfl

/-! ## Properties of `convertDxfToSvg` -/

theorem pathsOf_acc (es : List Entity) (acc : List SvgPathElem) :
    es.foldl pathStep acc = acc ++ pathsOf es := by
  induction es generalizing acc with
  | nil => simp [pathsOf]
  | cons e t ih =>
    simp only [pathsOf, List.foldl_cons, pathStep]
    by_cases h : e.type = "LWPOLYLINE" ∧ 0 < e.vertices.length <;>
      simp [h, ih, List.append_assoc]

theorem pathsOf_cons (e : Entity) (t : List Entity) :
    pathsOf (e :: t) = pathStep [] e ++ pathsOf t := by
  unfold pathsOf
  rw [List.foldl_cons, pathsOf_acc]
  rfl

/-- The emitted paths are exactly the retained entities' vertex lists,
in order. -/
theorem pathsOf_spec (es : List Entity) :
    (pathsOf es).map SvgPathElem.d =
      (es.filter specRetained).map Entity.vertices := by
  induction es with
  | nil => rfl
  | cons e t ih =>
    rw [pathsOf_cons]
    by_cases h : e.type = "LWPOLYLINE" ∧ 0 < e.vertices.length
    · have hne : e.vertices ≠ [] := List.ne_nil_of_length_pos h.2
      have hr : specRetained e = true := by
        cases hv : e.vertices with
        | nil => exact absurd hv hne
        | cons a l => simp [specRetained, h.1, hv]
      simp [pathStep, h, hr, List.filter_cons, ih]
    · have hr : specRetained e = false := by
        by_cases ht : e.type = "LWPOLYLINE"
        · have hlen : e.vertices.length = 0 := by
            rcases Nat.eq_zero_or_pos e.vertices.length with h0 | hpos
            · exact h0
            · exact absurd ⟨ht, hpos⟩ h
          have hv : e.vertices = [] := List.length_eq_zero.mp hlen
          simp [specRetained, hv]
        · simp [specRetained, ht]
      simp [pathStep, h, hr, List.filter_cons, ih]

/-- Path emission is per-entity: concatenating entity lists concatenates
their paths. -/
theorem pathsOf_append (a b : List Entity) :
    pathsOf (a ++ b) = pathsOf a ++ pathsOf b := by
  unfold pathsOf
  rw [List.foldl_append, pathsOf_acc]
  rfl

/-- Entities with no vertices emit no paths. -/
theorem pathsOf_nil_of_empty (es : List Entity)
    (hv : ∀ e ∈ es, e.vertices = []) : pathsOf es = [] := by
  induction es with
  | nil => rfl
  | cons e t ih =>
    rw [pathsOf_cons]
    have he : e.vertices = [] := hv e (by simp)
    have hstep : pathStep [] e = [] := by simp [pathStep, he]
    rw [hstep]
    exact ih (fun a ha => hv a (by simp [ha]))

theorem bbFold_entities_acc (es : List Entity) (bb : BBox) :
    es.foldl (fun bb e => e.vertices.foldl bbUpdate bb) bb =
      ((es.map Entity.vertices).flatten).foldl bbUpdate bb := by
  induction es generalizing bb with
  | nil => rfl
  | cons e t ih =>
    simp only [List.foldl_cons, List.map_cons, List.flatten_cons,
      List.foldl_append]
    exact ih _

theorem bbOfEntities_flatten (es : List Entity) :
    bbOfEntities es = (vertsOf es).foldl bbUpdate bbInit :=
  bbFold_entities_acc es bbInit

/-- Over finite coordinates, the bounding-box fold is the rational
min/max fold. -/
theorem bbFold_num (vs : List Vertex)
    (hn : ∀ v ∈ vs, v.x.isNumB ∧ v.y.isNumB) (a b c d : ℚ) :
    vs.foldl bbUpdate { minX := num a, maxX := num b, minY := num c, maxY := num d } =
      { minX := num (vs.foldl (fun m v => min m (ratOf v.x)) a)
        maxX := num (vs.foldl (fun m v => max m (ratOf v.x)) b)
        minY := num (vs.foldl (fun m v => min m (ratOf v.y)) c)
        maxY := num (vs.foldl (fun m v => max m (ratOf v.y)) d) } := by
  induction vs generalizing a b c d with
  | nil => rfl
  | cons v t ih =>
    obtain ⟨hx, hy⟩ := hn v (by simp)
    obtain ⟨qx, hqx⟩ : ∃ q, v.x = num q := by
      cases hvx : v.x <;> simp_all [JSVal.isNumB]
    obtain ⟨qy, hqy⟩ : ∃ q, v.y = num q := by
      cases hvy : v.y <;> simp_all [JSVal.isNumB]
    simp only [List.foldl_cons, bbUpdate, hqx, hqy, jsMin, jsMax, ratOf]
    exact ih (fun u hu => hn u (by simp [hu])) _ _ _ _

theorem ratOf_num (q : ℚ) : ratOf (num q) = q := rfl

/-- The JS bounding box of finitely-valued vertices is the rational
bounding box. -/
theorem bbox_spec (es : List Entity) (hnum : AllNum es) (mx Mx my My : ℚ)
    (hmx : foldMin? (xsOf es) = some mx) (hMx : foldMax? (xsOf es) = some Mx)
    (hmy : foldMin? (ysOf es) = some my) (hMy : foldMax? (ysOf es) = some My) :
    bbOfEntities es =
      { minX := num mx, maxX := num Mx, minY := num my, maxY := num My } := by
  rw [bbOfEntities_flatten]
  cases hvs : vertsOf es with
  | nil =>
    exfalso
    simp only [xsOf, hvs] at hmx
    simp [foldMin?] at hmx
  | cons v t =>
    have hnum' : ∀ u ∈ v :: t, u.x.isNumB ∧ u.y.isNumB := by
      rw [← hvs]; exact hnum
    obtain ⟨hx, hy⟩ := hnum' v (by simp)
    obtain ⟨qx, hqx⟩ : ∃ q, v.x = num q := by
      cases hvx : v.x <;> simp_all [JSVal.isNumB]
    obtain ⟨qy, hqy⟩ : ∃ q, v.y = num q := by
      cases hvy : v.y <;> simp_all [JSVal.isNumB]
    have hinit : bbUpdate bbInit v =
        { minX := num qx, maxX := num qx, minY := num qy, maxY := num qy } := by
      simp [bbUpdate, bbInit, hqx, hqy, jsMin, jsMax]
    rw [List.foldl_cons, hinit,
      bbFold_num t (fun u hu => hnum' u (by simp [hu]))]
    simp only [xsOf, ysOf, hvs, List.map_cons, foldMin?, foldMax?,
      List.foldl_map, hqx, hqy, ratOf_num, Option.some.injEq]
      at hmx hMx hmy hMy
    rw [hmx, hMx, hmy, hMy]

/-! Arithmetic facts about the JS operations on finite values. -/

theorem jsSub_num (a b : ℚ) : jsSub (num a) (num b) = num (a - b) := by
  simp [jsSub, jsAdd, jsNeg, sub_eq_add_neg]

theorem jsAdd_num (a b : ℚ) : jsAdd (num a) (num b) = num (a + b) := rfl

theorem jsMul_num (a b : ℚ) : jsMul (num a) (num b) = num (a * b) := rfl

theorem jsMin_num (a b : ℚ) : jsMin (num a) (num b) = num (min a b) := rfl

theorem jsDiv_num (a b : ℚ) (hb : b ≠ 0) :
    jsDiv (num a) (num b) = num (a / b) := by
  simp [jsDiv, hb]

theorem jsDiv_num_zero_pos (a : ℚ) (ha : 0 < a) :
    jsDiv (num a) (num 0) = posInf := by
  simp [jsDiv, ha, ne_of_gt ha]

theorem jsMul_posInf_num (q : ℚ) (hq : 0 < q) :
    jsMul posInf (num q) = posInf := by
  simp [jsMul, hq, ne_of_gt hq]

theorem jsMin_posInf_num (q : ℚ) : jsMin posInf (num q) = num q := rfl

theorem jsMin_num_posInf (q : ℚ) : jsMin (num q) posInf = num q := rfl

/-- Full computation of `convertDxfToSvg` over a finite bounding box (the
scale is left in JS-operation form; division by a zero extent has not yet
been resolved). -/
theorem convertDxfToSvg_eq (es : List Entity) (w h : ℚ) (hnum : AllNum es)
    (mx Mx my My : ℚ)
    (hmx : foldMin? (xsOf es) = some mx) (hMx : foldMax? (xsOf es) = some Mx)
    (hmy : foldMin? (ysOf es) = some my) (hMy : foldMax? (ysOf es) = some My) :
    convertDxfToSvg es w h =
      { width := w
        height := h
        translate1 := (w / 2, h / 2)
        scaleT := jsMul
          (jsMin (jsDiv (num w) (num (Mx - mx))) (jsDiv (num h) (num (My - my))))
          (num (4 / 5))
        translate2 := (num (-((mx + Mx) / 2)), num (-((my + My) / 2)))
        paths := pathsOf es } := by
  unfold convertDxfToSvg
  rw [bbox_spec es hnum mx Mx my My hmx hMx hmy hMy]
  simp only [jsSub_num, jsAdd_num]
  rw [jsDiv_num (mx + Mx) 2 (by norm_num), jsDiv_num (my + My) 2 (by norm_num)]
  simp [jsNeg, neg_div]

/-- Layers in the allow-list are whitespace-free and are not group-code
tokens. -/
theorem allowed_clean (L : String) (h : allowedCur (some L) = true) :
    jsTrim L = L ∧ CleanVal L := by
  simp only [allowedCur, Bool.or_eq_true, decide_eq_true_eq,
    Option.some.injEq] at h
  rcases h with (h | h) | h <;> subst h <;> exact ⟨by decide, by decide⟩

/-- Every zoom interaction keeps an in-range factor in range. -/
theorem applyZoom_bounds (a : ZoomAction) (z : ℚ)
    (h1 : 1 / 10 ≤ z) (h2 : z ≤ 5) :
    1 / 10 ≤ applyZoom a z ∧ applyZoom a z ≤ 5 := by
  cases a with
  | zoomIn =>
    constructor
    · exact le_min (by nlinarith) (by norm_num)
    · exact min_le_right _ _
  | zoomOut =>
    constructor
    · exact le_max_right _ _
    · refine max_le ?_ (by norm_num)
      rw [div_le_iff₀ (by norm_num : (0 : ℚ) < 6 / 5)]
      linarith
  | wheel b =>
    constructor
    · exact le_max_left _ _
    · exact max_le (by norm_num) (min_le_left _ _)
  | reset =>
    constructor <;> norm_num [applyZoom, handleResetZoom]

theorem zoomSeq_go_bounds (acts : List ZoomAction) (z : ℚ)
    (h1 : 1 / 10 ≤ z) (h2 : z ≤ 5) :
    1 / 10 ≤ acts.foldl (fun z a => applyZoom a z) z ∧
      acts.foldl (fun z a => applyZoom a z) z ≤ 5 := by
  induction acts generalizing z with
  | nil => exact ⟨h1, h2⟩
  | cons a t ih =>
    obtain ⟨g1, g2⟩ := applyZoom_bounds a z h1 h2
    exact ih _ g1 g2

/-! ## Claims -/

/-- C1 (counterexample): a DXF whose ENTITIES section contains exactly one
LWPOLYLINE, on the allowed layer `"details"` (and no LWPOLYLINE on any other
layer), for which `parseDxfContent` returns 0 entities instead of 1.  The
second vertex's y value is the string `"8"`; the scanner re-reads that value
line as a group-code-8 line, takes the following `10` code line as the layer
name, and the entity fails the allow-list check at finalization. -/
theorem c1_counterexample :
    (expectedEntities
        [⟨some "details", "2", [("1", "8"), ("2", "3")]⟩]).length = 1 ∧
    allowedCur (some "details") = true ∧
    parseDxfLines (serializeDxf
      [⟨some "details", "2", [("1", "8"), ("2", "3")]⟩]) = [] :=
  ⟨by decide, by decide, by decide⟩

/-- C1 (amended): for every DXF document whose value lines are clean (no
value line reads, after trimming, as one of the group-code tokens `8`, `90`,
`10`, `20`, and layers are given in trimmed form), the extractor returns
exactly the LWPOLYLINE entities on allowed layers, in original discovery
order, each with its vertices in original order; every LWPOLYLINE on a layer
outside the allowed set `{"0", "work_area", "details"}`, or whose layer was
never set, is discarded. -/
theorem c1_extractor_refinement (d : List DxfPoly)
    (hd : ∀ p ∈ d, CleanPoly p) :
    parseDxfLines (serializeDxf d) = expectedEntities d :=
  parseDxf_serialize d hd

theorem c1_extractor_refinement_witness :
    (∀ p ∈ ([⟨some "0", "4",
          [("0", "0"), ("100", "0"), ("100", "50"), ("0", "50")]⟩,
        ⟨some "scrap", "1", [("12", "34")]⟩] : List DxfPoly), CleanPoly p) ∧
    parseDxfLines (serializeDxf
        [⟨some "0", "4",
          [("0", "0"), ("100", "0"), ("100", "50"), ("0", "50")]⟩,
         ⟨some "scrap", "1", [("12", "34")]⟩]) =
      expectedEntities
        [⟨some "0", "4",
          [("0", "0"), ("100", "0"), ("100", "50"), ("0", "50")]⟩,
         ⟨some "scrap", "1", [("12", "34")]⟩] :=
  ⟨by decide, c1_extractor_refinement _ (by decide)⟩

/-- C2: for entities with finite coordinates spanning `dx > 0` and `dy > 0`
and a positive viewport, `convertDxfToSvg` emits the fixed-size document
whose single group transform translates to `(w/2, h/2)`, applies
`scale = min(w/dx, h/dy) * 0.8`, then translates by `(-centerX, -centerY)`
where `(centerX, centerY)` is the bounding-box centre. -/
theorem c2_scale_center_transform (es : List Entity) (w h : ℚ)
    (hnum : AllNum es) (mx Mx my My : ℚ)
    (hmx : foldMin? (xsOf es) = some mx) (hMx : foldMax? (xsOf es) = some Mx)
    (hmy : foldMin? (ysOf es) = some my) (hMy : foldMax? (ysOf es) = some My)
    (hdx : 0 < Mx - mx) (hdy : 0 < My - my) (_hw : 0 < w) (_hh : 0 < h) :
    convertDxfToSvg es w h =
      { width := w
        height := h
        translate1 := (w / 2, h / 2)
        scaleT := num (min (w / (Mx - mx)) (h / (My - my)) * (4 / 5))
        translate2 := (num (-((mx + Mx) / 2)), num (-((my + My) / 2)))
        paths := pathsOf es } := by
  rw [convertDxfToSvg_eq es w h hnum mx Mx my My hmx hMx hmy hMy]
  rw [jsDiv_num _ _ (ne_of_gt hdx), jsDiv_num _ _ (ne_of_gt hdy),
    jsMin_num, jsMul_num]

theorem c2_scale_center_transform_witness :
    (AllNum
        [{ type := "LWPOLYLINE",
           data := { layer := some "0", vertexCount := some (some 4) },
           vertices := [{ x := num 0, y := num 0 }, { x := num 100, y := num 0 },
             { x := num 100, y := num 50 }, { x := num 0, y := num 50 }] }] ∧
      (0 : ℚ) < 100 - 0 ∧ (0 : ℚ) < 50 - 0) ∧
    convertDxfToSvg
        [{ type := "LWPOLYLINE",
           data := { layer := some "0", vertexCount := some (some 4) },
           vertices := [{ x := num 0, y := num 0 }, { x := num 100, y := num 0 },
             { x := num 100, y := num 50 }, { x := num 0, y := num 50 }] }]
        800 600 =
      { width := 800, height := 600, translate1 := (800 / 2, 600 / 2),
        scaleT := num (min (800 / (100 - 0)) (600 / (50 - 0)) * (4 / 5)),
        translate2 := (num (-((0 + 100) / 2)), num (-((0 + 50) / 2))),
        paths := pathsOf
          [{ type := "LWPOLYLINE",
             data := { layer := some "0", vertexCount := some (some 4) },
             vertices := [{ x := num 0, y := num 0 },
               { x := num 100, y := num 0 }, { x := num 100, y := num 50 },
               { x := num 0, y := num 50 }] }] } :=
  ⟨⟨by decide, by norm_num, by norm_num⟩,
    c2_scale_center_transform _ 800 600 (by decide) 0 100 0 50 (by decide)
      (by decide) (by decide) (by decide) (by norm_num) (by norm_num)
      (by norm_num) (by norm_num)⟩

/-- C3 (counterexample): a non-numeric value after group code `10` does not
cause the entity to be skipped; the entity is returned, with a NaN x
coordinate, so `parseDxfContent` neither omits it nor surfaces any count of
skipped entities (its result is just the entity list). -/
theorem c3_counterexample :
    parseDxfLines ["2", "ENTITIES", "0", "LWPOLYLINE", "8", "details", "90",
        "1", "10", "oops", "20", "5"] =
      [{ type := "LWPOLYLINE",
         data := { layer := some "details", vertexCount := some (some 1) },
         vertices := [{ x := JSVal.nan, y := num 5 }] }] ∧
    parseDxfLines ["2", "ENTITIES", "0", "LWPOLYLINE", "8", "details", "90",
        "1", "10", "oops", "20", "5"] ≠ [] :=
  ⟨by decide, by decide⟩

/-- C3 (amended): a malformed numeric token is parsed as NaN and carried
through: the entity stays in the result (with a NaN coordinate), no count of
skipped entities is surfaced, and the scan — a total function here — does
not abort. -/
theorem c3_malformed_retained (L countStr xs ys : String)
    (hL : allowedCur (some L) = true)
    (hcs : CleanVal countStr) (hxs : CleanVal xs) (hys : CleanVal ys)
    (hnan : parseFloatJS xs = JSVal.nan) :
    parseDxfLines (serializeDxf [⟨some L, countStr, [(xs, ys)]⟩]) =
      [{ type := "LWPOLYLINE",
         data := { layer := some L, vertexCount := some (parseIntJS countStr) },
         vertices := [{ x := JSVal.nan, y := parseFloatJS ys }] }] := by
  have hcp : CleanPoly ⟨some L, countStr, [(xs, ys)]⟩ := by
    refine ⟨?_, hcs, ?_⟩
    · intro l hl
      obtain rfl : L = l := by simpa using hl
      exact allowed_clean L hL
    · intro q hq
      obtain rfl : q = (xs, ys) := by simpa using hq
      exact ⟨hxs, hys⟩
  rw [parseDxf_serialize _ (by
    intro p hp
    obtain rfl : p = ⟨some L, countStr, [(xs, ys)]⟩ := by simpa using hp
    exact hcp)]
  simp [expectedEntities, expectedEntity, List.filter_cons, hL, mkVertex, hnan]

theorem c3_malformed_retained_witness :
    (allowedCur (some "details") = true ∧ CleanVal "1" ∧ CleanVal "oops" ∧
      CleanVal "5" ∧ parseFloatJS "oops" = JSVal.nan) ∧
    parseDxfLines (serializeDxf [⟨some "details", "1", [("oops", "5")]⟩]) =
      [{ type := "LWPOLYLINE",
         data := { layer := some "details",
                   vertexCount := some (parseIntJS "1") },
         vertices := [{ x := JSVal.nan, y := parseFloatJS "5" }] }] :=
  ⟨⟨by decide, by decide, by decide, by decide, by decide⟩,
    c3_malformed_retained "details" "1" "oops" "5" (by decide) (by decide)
      (by decide) (by decide) (by decide)⟩

/-- C4: during extraction, a group-code-20 value is consumed as a Y
coordinate only when a pending X is held (`expectingY` set by an unconsumed
`10`, with `lastX` non-null); it then appends `{x: pendingX, y: value}` and
clears the pending X; a `20` with no pending `10` is ignored; and a `10`
sets the pending X. -/
theorem c4_y_consumption (s : PState) (ce : Entity) (v : String) (lx : JSVal)
    (hf : s.inEntitiesSection = true) (hI : s.inEntity = true)
    (hc : s.currentEntity = some ce) :
    (s.expectingY = true → s.lastX = some lx →
      step "20" (some v) s =
        { s with
          vertices := s.vertices ++ [{ x := lx, y := parseFloatJS v }]
          expectingY := false
          lastX := none }) ∧
    ((s.expectingY = false ∨ s.lastX = none) → step "20" (some v) s = s) ∧
    step "10" (some v) s =
      { s with lastX := some (parseFloatJS v), expectingY := true } :=
  ⟨fun hey hlx => step_code20_push v s ce lx hf hI hc hey hlx,
    fun hcase => step_code20_skip v s hcase,
    step_code10 v s ce hf hI hc⟩

theorem c4_y_consumption_witness :
    (({ entities := [], currentEntity := some ⟨"LWPOLYLINE", {}, []⟩,
        inEntity := true, inEntitiesSection := true, currentLayer := none,
        vertexCount := some 0, vertices := [], expectingY := true,
        lastX := some (num 1) } : PState).expectingY = true ∧
      step "20" (some "7")
        { entities := [], currentEntity := some ⟨"LWPOLYLINE", {}, []⟩,
          inEntity := true, inEntitiesSection := true, currentLayer := none,
          vertexCount := some 0, vertices := [], expectingY := true,
          lastX := some (num 1) } =
        { entities := [], currentEntity := some ⟨"LWPOLYLINE", {}, []⟩,
          inEntity := true, inEntitiesSection := true, currentLayer := none,
          vertexCount := some 0,
          vertices := [{ x := num 1, y := parseFloatJS "7" }],
          expectingY := false, lastX := none }) :=
  ⟨rfl,
    (c4_y_consumption
      { entities := [], currentEntity := some ⟨"LWPOLYLINE", {}, []⟩,
        inEntity := true, inEntitiesSection := true, currentLayer := none,
        vertexCount := some 0, vertices := [], expectingY := true,
        lastX := some (num 1) }
      ⟨"LWPOLYLINE", {}, []⟩ "7" (num 1) rfl rfl rfl).1 rfl rfl⟩

/-- C5 (counterexample): an entity with exactly one vertex produces one
(degenerate, single move-to) path element, not zero as the claim states. -/
theorem c5_counterexample :
    ((convertDxfToSvg
        [{ type := "LWPOLYLINE",
           data := { layer := some "details", vertexCount := none },
           vertices := [{ x := num 1, y := num 2 }] }] 800 600).paths).length
      = 1 := by
  decide

/-- C5 (amended): one path is emitted for each retained LWPOLYLINE with at
least one vertex (a 1-vertex entity yields one degenerate single-`M` path),
visiting its vertices in order and never auto-closed (the path records
exactly the vertex list); emission is per-entity, so one entity never
affects another's rendering. -/
theorem c5_paths_per_entity :
    (∀ (es : List Entity) (w h : ℚ),
      ((convertDxfToSvg es w h).paths).map SvgPathElem.d =
        (es.filter specRetained).map Entity.vertices) ∧
    (∀ (a b : List Entity) (w h : ℚ),
      (convertDxfToSvg (a ++ b) w h).paths =
        (convertDxfToSvg a w h).paths ++ (convertDxfToSvg b w h).paths) := by
  constructor
  · intro es w h
    show (pathsOf es).map _ = _
    exact pathsOf_spec es
  · intro a b w h
    show pathsOf (a ++ b) = pathsOf a ++ pathsOf b
    exact pathsOf_append a b

/-- C6 (counterexample): for a single-point drawing (zero extent on both
axes) no epsilon is substituted: the computed scale is `+Infinity`. -/
theorem c6_counterexample :
    (convertDxfToSvg
        [{ type := "LWPOLYLINE",
           data := { layer := some "details", vertexCount := none },
           vertices := [{ x := num 1, y := num 2 }] }] 800 600).scaleT
      = posInf := by
  rw [convertDxfToSvg_eq _ 800 600 (by decide) 1 1 2 2 (by decide) (by decide)
    (by decide) (by decide)]
  show jsMul
    (jsMin (jsDiv (num 800) (num (1 - 1))) (jsDiv (num 600) (num (2 - 2))))
    (num (4 / 5)) = posInf
  rw [show (1 : ℚ) - 1 = 0 from by norm_num,
    show (2 : ℚ) - 2 = 0 from by norm_num,
    jsDiv_num_zero_pos 800 (by norm_num), jsDiv_num_zero_pos 600 (by norm_num),
    show jsMin posInf posInf = posInf from rfl]
  exact jsMul_posInf_num _ (by norm_num)

/-- C6 (amended): no epsilon is substituted for a zero extent.  When both
extents are zero (single point) the scale is `+Infinity`; when only one
extent is zero the scale stays finite, determined by the other axis alone
(`h/dy * 0.8` when `dx = 0`, `w/dx * 0.8` when `dy = 0`).  The function is
total either way — rendering continues, just not with a finite scale in the
first case. -/
theorem c6_degenerate_scale (es : List Entity) (w h : ℚ) (hnum : AllNum es)
    (mx Mx my My : ℚ)
    (hmx : foldMin? (xsOf es) = some mx) (hMx : foldMax? (xsOf es) = some Mx)
    (hmy : foldMin? (ysOf es) = some my) (hMy : foldMax? (ysOf es) = some My)
    (hw : 0 < w) (hh : 0 < h) :
    (Mx - mx = 0 → My - my = 0 → (convertDxfToSvg es w h).scaleT = posInf) ∧
    (Mx - mx = 0 → 0 < My - my →
      (convertDxfToSvg es w h).scaleT = num (h / (My - my) * (4 / 5))) ∧
    (My - my = 0 → 0 < Mx - mx →
      (convertDxfToSvg es w h).scaleT = num (w / (Mx - mx) * (4 / 5))) := by
  rw [convertDxfToSvg_eq es w h hnum mx Mx my My hmx hMx hmy hMy]
  refine ⟨?_, ?_, ?_⟩
  · intro h1 h2
    rw [h1, h2, jsDiv_num_zero_pos w hw, jsDiv_num_zero_pos h hh]
    show jsMul (jsMin posInf posInf) (num (4 / 5)) = posInf
    rw [show jsMin posInf posInf = posInf from rfl]
    exact jsMul_posInf_num _ (by norm_num)
  · intro h1 hdy
    rw [h1, jsDiv_num_zero_pos w hw, jsDiv_num _ _ (ne_of_gt hdy),
      jsMin_posInf_num, jsMul_num]
  · intro h1 hdx
    rw [h1, jsDiv_num_zero_pos h hh, jsDiv_num _ _ (ne_of_gt hdx),
      jsMin_num_posInf, jsMul_num]

theorem c6_degenerate_scale_witness :
    (AllNum
        [{ type := "LWPOLYLINE",
           data := { layer := some "details", vertexCount := none },
           vertices := [{ x := num 1, y := num 2 }] }] ∧
      (1 : ℚ) - 1 = 0 ∧ (2 : ℚ) - 2 = 0) ∧
    (convertDxfToSvg
        [{ type := "LWPOLYLINE",
           data := { layer := some "details", vertexCount := none },
           vertices := [{ x := num 1, y := num 2 }] }] 800 600).scaleT
      = posInf ∧
    (convertDxfToSvg
        [{ type := "LWPOLYLINE",
           data := { layer := some "details", vertexCount := none },
           vertices := [{ x := num 0, y := num 2 },
             { x := num 10, y := num 2 }] }] 800 600).scaleT
      = num (800 / (10 - 0) * (4 / 5)) :=
  ⟨⟨by decide, by norm_num, by norm_num⟩,
    (c6_degenerate_scale _ 800 600 (by decide) 1 1 2 2 (by decide) (by decide)
      (by decide) (by decide) (by norm_num) (by norm_num)).1 (by norm_num)
      (by norm_num),
    (c6_degenerate_scale _ 800 600 (by decide) 0 10 2 2 (by decide) (by decide)
      (by decide) (by decide) (by norm_num) (by norm_num)).2.2 (by norm_num)
      (by norm_num)⟩

/-- C7: for an empty entity list, or entities all without vertices,
`convertDxfToSvg` (a total function — it cannot throw) returns a document
with zero path elements. -/
theorem c7_empty_no_paths (es : List Entity) (w h : ℚ)
    (hv : ∀ e ∈ es, e.vertices = []) :
    (convertDxfToSvg es w h).paths = [] := by
  show pathsOf es = []
  exact pathsOf_nil_of_empty es hv

theorem c7_empty_no_paths_witness :
    (∀ e ∈ ([{ type := "LWPOLYLINE", data := {}, vertices := [] }] :
      List Entity), e.vertices = []) ∧
    (convertDxfToSvg [{ type := "LWPOLYLINE", data := {}, vertices := [] }]
      800 600).paths = [] ∧
    (convertDxfToSvg [] 800 600).paths = [] :=
  ⟨by decide,
    c7_empty_no_paths _ 800 600 (by decide),
    c7_empty_no_paths [] 800 600 (by decide)⟩

/-- C8: from the initial factor 1.0, every sequence of zoom-in, zoom-out and
scroll-wheel steps keeps the display zoom inside `[0.1, 5.0]`; three
1.1-multiplier wheel steps from 1.0 give exactly 1.331. -/
theorem c8_zoom_bounds :
    (∀ acts : List ZoomAction,
      1 / 10 ≤ zoomSeq acts ∧ zoomSeq acts ≤ 5) ∧
    zoomSeq [ZoomAction.wheel false, ZoomAction.wheel false,
      ZoomAction.wheel false] = 1331 / 1000 := by
  constructor
  · intro acts
    exact zoomSeq_go_bounds acts 1 (by norm_num) (by norm_num)
  · norm_num [zoomSeq, applyZoom, handleWheel, min_def, max_def]

/-- C9: once a LWPOLYLINE is pending, the start of a non-LWPOLYLINE entity
(`0` followed by e.g. `LINE`) changes nothing in the scanner state, so later
`8`/`10`/`20` lines are still applied to the pending LWPOLYLINE: its vertex
list absorbs the LINE's coordinates and the allow-list check uses the most
recent group-8 value regardless of which entity it came from. -/
theorem c9_state_not_cleared :
    (∀ (s : PState) (t : String), jsTrim t ≠ "LWPOLYLINE" →
      step "0" (some t) s = s) ∧
    parseDxfLines ["2", "ENTITIES", "0", "LWPOLYLINE", "90", "1", "10", "1",
        "20", "2", "0", "LINE", "8", "details", "10", "3", "20", "4"] =
      [{ type := "LWPOLYLINE",
         data := { layer := some "details", vertexCount := some (some 1) },
         vertices := [{ x := num 1, y := num 2 },
           { x := num 3, y := num 4 }] }] := by
  constructor
  · intro s t ht
    exact step_zero_other (some t) s (by simpa using ht)
  · decide

theorem c9_state_not_cleared_witness :
    jsTrim "LINE" ≠ "LWPOLYLINE" ∧ step "0" (some "LINE") initState = initState :=
  ⟨by decide, c9_state_not_cleared.1 initState "LINE" (by decide)⟩

/-- C10: the ENTITIES-section flag, once set, is never cleared — by a single
step, nor by the rest of the scan — so LWPOLYLINE entities appearing after
the ENTITIES section ended (here inside a later section) are still
extracted. -/
theorem c10_section_flag_sticky :
    (∀ (l : String) (n : Option String) (s : PState),
      s.inEntitiesSection = true → (step l n s).inEntitiesSection = true) ∧
    (∀ (lines : List String) (s : PState),
      s.inEntitiesSection = true →
        (scanLines lines s).inEntitiesSection = true) ∧
    parseDxfLines ["0", "SECTION", "2", "ENTITIES", "0", "ENDSEC", "0",
        "SECTION", "2", "OBJECTS", "0", "LWPOLYLINE", "8", "details", "90",
        "1", "10", "1", "20", "2", "0", "ENDSEC", "0", "EOF"] =
      [{ type := "LWPOLYLINE",
         data := { layer := some "details", vertexCount := some (some 1) },
         vertices := [{ x := num 1, y := num 2 }] }] :=
  ⟨step_flag_mono, scanLines_flag_mono, by decide⟩

theorem c10_section_flag_sticky_witness :
    ({ initState with inEntitiesSection := true } : PState).inEntitiesSection
        = true ∧
    (step "ENDSEC" none
      { initState with inEntitiesSection := true }).inEntitiesSection = true :=
  ⟨rfl, c10_section_flag_sticky.1 "ENDSEC" none
    { initState with inEntitiesSection := true } rfl⟩

end MdfCutting
